import Mathlib

/-!
Verification development for the viewport transform engine of the
infinite-canvas component (`src/components/canva.tsx`, the variant with
zoom support).  The component's numeric state and its event handlers are
embedded shallowly: JavaScript numbers are modelled by `ℚ` (exact
arithmetic; JavaScript's binary64 rounding is idealised away), and each
DOM event handler becomes a pure state-transition function.  Where
IEEE-754 special values (`Infinity`, `NaN`) are the point at issue, a
separate explicit model `JS.JSNum` with special-value semantics is used.
-/

namespace Canvas

/- Grid configuration constants, from the `GRID` object in the source. -/
namespace GRID

def cellSize : ℚ := 400

def centerX : ℚ := 5000

def centerY : ℚ := 5000

end GRID

/- Zoom configuration constants, from the `ZOOM` object in the source. -/
namespace ZOOM

def min : ℚ := 1/5

def max : ℚ := 2

def step : ℚ := 1/10

def default : ℚ := 1

end ZOOM

/-- Helper converting grid coordinates to pixel positions, from
`gridToPixel` in the source.  It is a closed function of the grid
coordinates and the `GRID` constants only; by construction it does not
read the viewport transform state. -/
def gridToPixel (gridX gridY : ℚ) : ℚ × ℚ :=
  (GRID.centerX + gridX * GRID.cellSize, GRID.centerY + gridY * GRID.cellSize)

/-- Square root on `ℚ` used to model `Math.hypot`.  It is exact whenever
the argument is the square of a rational in lowest terms (in particular
for every axis-aligned contact pair evaluated concretely in this file);
`Math.hypot` itself rounds to binary64, so no exact total rational model
of it exists, and no theorem below depends on its values outside the
exact domain. -/
def ratSqrt (q : ℚ) : ℚ :=
  (Nat.sqrt q.num.natAbs : ℚ) / (Nat.sqrt q.den : ℚ)

/-- Model of `Math.hypot(dx, dy)`, the Euclidean distance used for the
pinch gesture in `handleTouchStart` / `handleTouchMove`. -/
def jsHypot (dx dy : ℚ) : ℚ :=
  ratSqrt (dx ^ 2 + dy ^ 2)

/-- Distance between two touch contacts, as computed at lines 190-193 and
215-218 of the source (`Math.hypot` of the coordinate differences). -/
def touchDistance (t1 t2 : ℚ × ℚ) : ℚ :=
  jsHypot (t1.1 - t2.1) (t1.2 - t2.2)

/-- The numeric and session state of the `InfiniteCanvas` component: the
`position` offset, `zoomLevel`, the drag flag and anchor (`isDragging`,
`startPos`), the stored pinch distance (`lastDistance`), and the debug
flag.  Rendering-only fields (`showTip`, `showZoomControls`) are omitted:
no handler reads them. -/
structure CanvasState where
  posX : ℚ
  posY : ℚ
  zoom : ℚ
  isDragging : Bool
  startX : ℚ
  startY : ℚ
  lastDistance : Option ℚ
  showDebug : Bool
deriving DecidableEq, Repr

/-- Model of `handleWheel` (source lines 112-150).  The event supplies
`ctrlKey`, `deltaY`, the pointer's client position, and the bounding
rectangle of the canvas element (an environment input in the source,
obtained from `getBoundingClientRect`; the model assumes the ref is
mounted, as the handler returns unchanged otherwise). -/
def handleWheel (s : CanvasState) (ctrlKey : Bool)
    (deltaY clientX clientY rectLeft rectTop : ℚ) : CanvasState :=
  if !ctrlKey then s
  else
    let delta := deltaY * (-(1:ℚ)/100)
    let newZoomLevel := max ZOOM.min (min ZOOM.max (s.zoom + delta * ZOOM.step))
    if newZoomLevel ≠ s.zoom then
      let mouseX := clientX - rectLeft
      let mouseY := clientY - rectTop
      let scaleFactor := newZoomLevel / s.zoom
      { s with
        zoom := newZoomLevel
        posX := mouseX - (mouseX - s.posX) * scaleFactor
        posY := mouseY - (mouseY - s.posY) * scaleFactor }
    else s

/-- Zoom level computed by `handleWheel` before the redundant-update
check: `Math.max(ZOOM.min, Math.min(ZOOM.max, zoomLevel + (deltaY * -0.01) * ZOOM.step))`
(source lines 120-124), exposed as a named function for the statements
below; it coincides with the `newZoomLevel` binding of `handleWheel`. -/
def wheelZoomTarget (zoom deltaY : ℚ) : ℚ :=
  max ZOOM.min (min ZOOM.max (zoom + deltaY * (-(1:ℚ)/100) * ZOOM.step))

/-- Debug-toggle branch of `handleKeyDown` (source lines 76-78). -/
def keyToggleDebug (s : CanvasState) (key : String) : CanvasState :=
  if key = "d" ∨ key = "D" then { s with showDebug := !s.showDebug } else s

/-- Re-center branch of `handleKeyDown` (source lines 81-89). -/
def keyRecenter (s : CanvasState) (key : String) (innerWidth innerHeight : ℚ) :
    CanvasState :=
  if key = "c" ∨ key = "C" then
    { s with
      posX := innerWidth / 2 - GRID.centerX
      posY := innerHeight / 2 - GRID.centerY }
  else s

/-- Reset-zoom branch of `handleKeyDown` (source lines 92-94). -/
def keyResetZoom (s : CanvasState) (key : String) : CanvasState :=
  if key = "r" ∨ key = "R" then { s with zoom := ZOOM.default } else s

/-- Step-zoom-in branch of `handleKeyDown` (source lines 97-99). -/
def keyZoomIn (s : CanvasState) (key : String) : CanvasState :=
  if key = "+" ∨ key = "=" then { s with zoom := min (s.zoom + ZOOM.step) ZOOM.max } else s

/-- Step-zoom-out branch of `handleKeyDown` (source lines 102-104). -/
def keyZoomOut (s : CanvasState) (key : String) : CanvasState :=
  if key = "-" ∨ key = "_" then { s with zoom := max (s.zoom - ZOOM.step) ZOOM.min } else s

/-- Model of `handleKeyDown` (source lines 74-105): the five independent
`if` statements of the handler, applied in source order; the window size
is read at event time, so it is an event input here. -/
def handleKeyDown (s : CanvasState) (key : String)
    (innerWidth innerHeight : ℚ) : CanvasState :=
  keyZoomOut (keyZoomIn (keyResetZoom (keyRecenter (keyToggleDebug s key) key
    innerWidth innerHeight) key) key) key

/-- Model of `handleMouseDown` (source lines 159-165). -/
def handleMouseDown (s : CanvasState) (clientX clientY : ℚ) : CanvasState :=
  { s with
    isDragging := true
    startX := clientX - s.posX
    startY := clientY - s.posY }

/-- Model of `handleMouseMove` (source lines 167-174). -/
def handleMouseMove (s : CanvasState) (clientX clientY : ℚ) : CanvasState :=
  if !s.isDragging then s
  else
    { s with
      posX := clientX - s.startX
      posY := clientY - s.startY }

/-- Model of `handleMouseUp` (source lines 176-178). -/
def handleMouseUp (s : CanvasState) : CanvasState :=
  { s with isDragging := false }

/-- Model of `handleTouchStart` (source lines 181-204): two contacts
store the pinch distance; one contact opens a drag; other counts leave
the state unchanged. -/
def handleTouchStart (s : CanvasState) (touches : List (ℚ × ℚ)) : CanvasState :=
  match touches with
  | [t1, t2] =>
      { s with lastDistance := some (touchDistance t1 t2) }
  | [t] =>
      { s with
        isDragging := true
        startX := t.1 - s.posX
        startY := t.2 - s.posY }
  | _ => s

/-- Model of `handleTouchMove` (source lines 206-257).  The pinch branch
fires when two contacts are active and a distance is stored; otherwise
the single-contact drag branch fires when dragging.  The division
`currentDistance / lastD` is exact rational division; it agrees with
JavaScript whenever `lastD ≠ 0` (for the degenerate `lastD = 0` case see
the `JS` namespace below). -/
def handleTouchMove (s : CanvasState) (touches : List (ℚ × ℚ))
    (rectLeft rectTop : ℚ) : CanvasState :=
  match touches, s.lastDistance with
  | [t1, t2], some lastD =>
      let currentDistance := touchDistance t1 t2
      let ratio := currentDistance / lastD
      let newZoomLevel := max ZOOM.min (min ZOOM.max (s.zoom * ratio))
      let midX := (t1.1 + t2.1) / 2
      let midY := (t1.2 + t2.2) / 2
      let midpointX := midX - rectLeft
      let midpointY := midY - rectTop
      let scaleFactor := newZoomLevel / s.zoom
      { s with
        zoom := newZoomLevel
        posX := midpointX - (midpointX - s.posX) * scaleFactor
        posY := midpointY - (midpointY - s.posY) * scaleFactor
        lastDistance := some currentDistance }
  | [t], _ =>
      if s.isDragging then
        { s with
          posX := t.1 - s.startX
          posY := t.2 - s.startY }
      else s
  | _, _ => s

/-- Model of `handleTouchEnd` (source lines 259-269): `touches` is the
list of remaining contacts. -/
def handleTouchEnd (s : CanvasState) (touches : List (ℚ × ℚ)) : CanvasState :=
  let s1 := if touches.length < 2 then { s with lastDistance := none } else s
  if touches.length = 0 then { s1 with isDragging := false } else s1

/-- Model of the mobile `zoomIn` button (source lines 300-302). -/
def zoomIn (s : CanvasState) : CanvasState :=
  { s with zoom := min (s.zoom + ZOOM.step) ZOOM.max }

/-- Model of the mobile `zoomOut` button (source lines 305-307). -/
def zoomOut (s : CanvasState) : CanvasState :=
  { s with zoom := max (s.zoom - ZOOM.step) ZOOM.min }

/-- Model of the mobile `resetZoom` button (source lines 310-312). -/
def resetZoom (s : CanvasState) : CanvasState :=
  { s with zoom := ZOOM.default }

/-- Modelled from the spec (§4.5): the anchor-based pinch zoom
`z1 = clamp(anchorZoom * (currentDistance / anchorDistance), zoomMin, zoomMax)`.
Written from the spec's words, to be compared with the code's update in
`handleTouchMove`. -/
def specPinchZoom (anchorZoom anchorDistance currentDistance : ℚ) : ℚ :=
  max ZOOM.min (min ZOOM.max (anchorZoom * (currentDistance / anchorDistance)))

/-- Modelled from the spec (§4.4): the focal-point-preserving offset
formula `newOffset = p - (p - offset) * scaleFactor`. -/
def specFocalOffset (p offset scaleFactor : ℚ) : ℚ :=
  p - (p - offset) * scaleFactor

/-- Input events delivered to the component.  Environment readings that
the handlers take at event time (window size, canvas bounding rectangle)
are carried on the event. -/
inductive Event where
  | wheel (ctrlKey : Bool) (deltaY clientX clientY rectLeft rectTop : ℚ)
  | keyDown (key : String) (innerWidth innerHeight : ℚ)
  | mouseDown (clientX clientY : ℚ)
  | mouseMove (clientX clientY : ℚ)
  | mouseUp
  | touchStart (touches : List (ℚ × ℚ))
  | touchMove (touches : List (ℚ × ℚ)) (rectLeft rectTop : ℚ)
  | touchEnd (touches : List (ℚ × ℚ))
  | zoomInButton
  | zoomOutButton
  | resetZoomButton
deriving DecidableEq, Repr

/-- One event dispatched to its handler.  Events are delivered strictly
sequentially (single-threaded DOM event loop), so the component's
behaviour is this fold step. -/
def step (s : CanvasState) : Event → CanvasState
  | .wheel ctrlKey deltaY clientX clientY rectLeft rectTop =>
      handleWheel s ctrlKey deltaY clientX clientY rectLeft rectTop
  | .keyDown key innerWidth innerHeight => handleKeyDown s key innerWidth innerHeight
  | .mouseDown clientX clientY => handleMouseDown s clientX clientY
  | .mouseMove clientX clientY => handleMouseMove s clientX clientY
  | .mouseUp => handleMouseUp s
  | .touchStart touches => handleTouchStart s touches
  | .touchMove touches rectLeft rectTop => handleTouchMove s touches rectLeft rectTop
  | .touchEnd touches => handleTouchEnd s touches
  | .zoomInButton => zoomIn s
  | .zoomOutButton => zoomOut s
  | .resetZoomButton => resetZoom s

/-- Replay of an event sequence from a state. -/
def run (s : CanvasState) (events : List Event) : CanvasState :=
  events.foldl step s

/-- State of the component after the initial centering effect (source
lines 52-69): the offset centers grid origin `(0,0)` in the viewport and
the zoom is the `useState` initial value `ZOOM.default`. -/
def initialState (viewportWidth viewportHeight : ℚ) : CanvasState :=
  { posX := viewportWidth / 2 - GRID.centerX
    posY := viewportHeight / 2 - GRID.centerY
    zoom := ZOOM.default
    isDragging := false
    startX := 0
    startY := 0
    lastDistance := none
    showDebug := false }

/-- Concrete state used in closed evaluations: origin offset, default
zoom, no open sessions. -/
def baseState : CanvasState :=
  { posX := 0, posY := 0, zoom := 1, isDragging := false, startX := 0, startY := 0,
    lastDistance := none, showDebug := false }

/-- Concrete state used in closed evaluations: `baseState` with an open
pinch session whose stored distance is `100`. -/
def pinchState100 : CanvasState :=
  { baseState with lastDistance := some 100 }

/-- Guard marking the traces on which the exact rational model of the
pinch division agrees with JavaScript: no pinch-move event is processed
while the stored pinch distance is zero (two coincident contacts).  On
such an event JavaScript divides by zero, which `ℚ` cannot express
faithfully; see the `JS` namespace. -/
def noDegeneratePinch : CanvasState → List Event → Bool
  | _, [] => true
  | s, e :: es =>
      (match e with
       | .touchMove touches _ _ =>
           !(touches.length = 2 && s.lastDistance = some 0)
       | _ => true)
      && noDegeneratePinch (step s e) es

end Canvas

namespace JS

/-- JavaScript number with IEEE-754 special values, used to model the
unguarded pinch division where exact rational arithmetic is not
faithful.  The finite case carries an exact rational (binary64 rounding
and negative zero are idealised away; the concrete computations below
involve only exactly representable values and never produce `-0`). -/
inductive JSNum where
  | num (q : ℚ)
  | inf
  | ninf
  | nan
deriving DecidableEq, Repr

/-- Multiplication with IEEE special-value rules: `NaN` propagates and
`±Infinity * 0` is `NaN`. -/
def mul : JSNum → JSNum → JSNum
  | .nan, _ => .nan
  | _, .nan => .nan
  | .num a, .num b => .num (a * b)
  | .inf, .inf => .inf
  | .inf, .ninf => .ninf
  | .ninf, .inf => .ninf
  | .ninf, .ninf => .inf
  | .inf, .num b => if 0 < b then .inf else if b < 0 then .ninf else .nan
  | .num a, .inf => if 0 < a then .inf else if a < 0 then .ninf else .nan
  | .ninf, .num b => if 0 < b then .ninf else if b < 0 then .inf else .nan
  | .num a, .ninf => if 0 < a then .ninf else if a < 0 then .inf else .nan

/-- Division with IEEE special-value rules: a nonzero finite number
divided by zero is a signed infinity, and `0 / 0` is `NaN`. -/
def div : JSNum → JSNum → JSNum
  | .nan, _ => .nan
  | _, .nan => .nan
  | .num a, .num b =>
      if b = 0 then (if a = 0 then .nan else if 0 < a then .inf else .ninf)
      else .num (a / b)
  | .num _, .inf => .num 0
  | .num _, .ninf => .num 0
  | .inf, .num b => if 0 ≤ b then .inf else .ninf
  | .ninf, .num b => if 0 ≤ b then .ninf else .inf
  | .inf, .inf => .nan
  | .inf, .ninf => .nan
  | .ninf, .inf => .nan
  | .ninf, .ninf => .nan

/-- Comparison `a <= b`; every comparison involving `NaN` is false. -/
def le : JSNum → JSNum → Bool
  | .nan, _ => false
  | _, .nan => false
  | .ninf, _ => true
  | _, .ninf => false
  | _, .inf => true
  | .inf, _ => false
  | .num a, .num b => decide (a ≤ b)

/-- Model of `Math.min` for two arguments: `NaN` if either argument is
`NaN`, otherwise the smaller. -/
def jsMin (a b : JSNum) : JSNum :=
  if a = .nan ∨ b = .nan then .nan else if le a b then a else b

/-- Model of `Math.max` for two arguments: `NaN` if either argument is
`NaN`, otherwise the larger. -/
def jsMax (a b : JSNum) : JSNum :=
  if a = .nan ∨ b = .nan then .nan else if le a b then b else a

/-- Zoom computation of the pinch branch of `handleTouchMove` (source
lines 220-225) under JavaScript number semantics:
`Math.max(ZOOM.min, Math.min(ZOOM.max, zoomLevel * (currentDistance / lastDistance)))`,
with no guard on `lastDistance = 0`. -/
def pinchZoomUpdate (zoom : JSNum) (lastDistance currentDistance : ℚ) : JSNum :=
  let ratio := div (.num currentDistance) (.num lastDistance)
  jsMax (.num Canvas.ZOOM.min) (jsMin (.num Canvas.ZOOM.max) (mul zoom ratio))

/-- Pinch-branch zoom step of `handleTouchMove` at the level of the
stored state `(zoomLevel, lastDistance)`: when two contacts are active
and a distance is stored, the zoom is updated by `pinchZoomUpdate` and
the current distance replaces the stored one (source lines 208-246);
otherwise the pair is unchanged. -/
def touchMoveZoom (zoom : JSNum) (lastD : Option ℚ) (touches : List (ℚ × ℚ)) :
    JSNum × Option ℚ :=
  match touches, lastD with
  | [t1, t2], some d =>
      let cur := Canvas.touchDistance t1 t2
      (pinchZoomUpdate zoom d cur, some cur)
  | _, _ => (zoom, lastD)

/-- Bound check `zoomMin <= z <= zoomMax` under JavaScript comparison
semantics (false when `z` is `NaN`). -/
def zoomInBounds (z : JSNum) : Bool :=
  le (.num Canvas.ZOOM.min) z && le z (.num Canvas.ZOOM.max)

end JS

namespace Canvas

/-- Evaluation lemma for `ratSqrt` on perfect rational squares. -/
lemma ratSqrt_natCast_sq (n : ℕ) : ratSqrt ((n : ℚ) ^ 2) = n := by
  have h : ((n : ℚ) ^ 2) = ((n ^ 2 : ℕ) : ℚ) := by push_cast; ring
  rw [h]
  simp [ratSqrt, Rat.num_natCast, Rat.den_natCast, Int.natAbs_pow, Int.natAbs_ofNat,
    Nat.sqrt_one, Nat.sqrt_eq']

/-- Evaluation lemma for `ratSqrt` at an explicit square. -/
lemma ratSqrt_eval {q : ℚ} (n : ℕ) (h : q = (n : ℚ) ^ 2) : ratSqrt q = n :=
  h ▸ ratSqrt_natCast_sq n

/-- Evaluation lemma for `touchDistance` at contacts whose Euclidean
distance is a natural number. -/
lemma touchDistance_eval (t1 t2 : ℚ × ℚ) (n : ℕ)
    (h : (t1.1 - t2.1) ^ 2 + (t1.2 - t2.2) ^ 2 = (n : ℚ) ^ 2) :
    touchDistance t1 t2 = n :=
  ratSqrt_eval n h

/-- Bound preservation for the clamp expression used by the wheel and
pinch zoom updates. -/
lemma clamp_within (x : ℚ) :
    ZOOM.min ≤ max ZOOM.min (min ZOOM.max x) ∧ max ZOOM.min (min ZOOM.max x) ≤ ZOOM.max := by
  refine ⟨le_max_left _ _, max_le (by norm_num [ZOOM.min, ZOOM.max]) (min_le_left _ _)⟩

/-- Bound preservation for the step-zoom-in expression. -/
lemma within_zoomIn {z : ℚ} (h1 : ZOOM.min ≤ z) :
    ZOOM.min ≤ min (z + ZOOM.step) ZOOM.max ∧ min (z + ZOOM.step) ZOOM.max ≤ ZOOM.max := by
  simp only [ZOOM.min, ZOOM.max, ZOOM.step] at *
  exact ⟨le_min (by linarith) (by norm_num), min_le_right _ _⟩

/-- Bound preservation for the step-zoom-out expression. -/
lemma within_zoomOut {z : ℚ} (h2 : z ≤ ZOOM.max) :
    ZOOM.min ≤ max (z - ZOOM.step) ZOOM.min ∧ max (z - ZOOM.step) ZOOM.min ≤ ZOOM.max := by
  simp only [ZOOM.min, ZOOM.max, ZOOM.step] at *
  exact ⟨le_max_right _ _, max_le (by linarith) (by norm_num)⟩

/-- The default zoom lies within the configured bounds. -/
lemma within_default : ZOOM.min ≤ ZOOM.default ∧ ZOOM.default ≤ ZOOM.max := by
  norm_num [ZOOM.min, ZOOM.max, ZOOM.default]

/-- Bound preservation for each keyboard branch of `handleKeyDown`. -/
lemma keyResetZoom_within {s : CanvasState} (key : String)
    (h1 : ZOOM.min ≤ s.zoom) (h2 : s.zoom ≤ ZOOM.max) :
    ZOOM.min ≤ (keyResetZoom s key).zoom ∧ (keyResetZoom s key).zoom ≤ ZOOM.max := by
  unfold keyResetZoom
  split
  · exact within_default
  · exact ⟨h1, h2⟩

/-- Bound preservation for the step-zoom-in keyboard branch. -/
lemma keyZoomIn_within {s : CanvasState} (key : String)
    (h1 : ZOOM.min ≤ s.zoom) (h2 : s.zoom ≤ ZOOM.max) :
    ZOOM.min ≤ (keyZoomIn s key).zoom ∧ (keyZoomIn s key).zoom ≤ ZOOM.max := by
  unfold keyZoomIn
  split
  · exact within_zoomIn h1
  · exact ⟨h1, h2⟩

/-- Bound preservation for the step-zoom-out keyboard branch. -/
lemma keyZoomOut_within {s : CanvasState} (key : String)
    (h1 : ZOOM.min ≤ s.zoom) (h2 : s.zoom ≤ ZOOM.max) :
    ZOOM.min ≤ (keyZoomOut s key).zoom ∧ (keyZoomOut s key).zoom ≤ ZOOM.max := by
  unfold keyZoomOut
  split
  · exact within_zoomOut h2
  · exact ⟨h1, h2⟩

/-- The first two keyboard branches do not touch the zoom. -/
lemma keyRecenter_toggle_zoom (s : CanvasState) (key : String) (w h : ℚ) :
    (keyRecenter (keyToggleDebug s key) key w h).zoom = s.zoom := by
  unfold keyRecenter keyToggleDebug
  split <;> split <;> rfl

/-- Every single event preserves the zoom bounds in the exact model:
each zoom write in the source is clamped or is a bounded adjustment. -/
lemma step_zoom_within (s : CanvasState) (e : Event)
    (h1 : ZOOM.min ≤ s.zoom) (h2 : s.zoom ≤ ZOOM.max) :
    ZOOM.min ≤ (step s e).zoom ∧ (step s e).zoom ≤ ZOOM.max := by
  cases e with
  | wheel ctrl dY cX cY rL rT =>
      simp only [step, handleWheel]
      split_ifs with hctrl hne
      · exact ⟨h1, h2⟩
      · exact clamp_within _
      · exact ⟨h1, h2⟩
  | keyDown key w h =>
      have h0 := keyRecenter_toggle_zoom s key w h
      have hr := keyResetZoom_within (s := keyRecenter (keyToggleDebug s key) key w h)
        key (h0 ▸ h1) (h0 ▸ h2)
      have hp := keyZoomIn_within key hr.1 hr.2
      exact keyZoomOut_within key hp.1 hp.2
  | mouseDown cX cY => exact ⟨h1, h2⟩
  | mouseMove cX cY =>
      simp only [step, handleMouseMove]
      split_ifs <;> exact ⟨h1, h2⟩
  | mouseUp => exact ⟨h1, h2⟩
  | touchStart touches =>
      simp only [step, handleTouchStart]
      split <;> exact ⟨h1, h2⟩
  | touchMove touches rL rT =>
      simp only [step, handleTouchMove]
      split
      · exact clamp_within _
      · split_ifs <;> exact ⟨h1, h2⟩
      · exact ⟨h1, h2⟩
  | touchEnd touches =>
      simp only [step, handleTouchEnd]
      split_ifs <;> exact ⟨h1, h2⟩
  | zoomInButton => exact within_zoomIn h1
  | zoomOutButton => exact within_zoomOut h2
  | resetZoomButton => exact within_default

/-- Restriction of the degenerate-pinch guard to an initial segment. -/
lemma noDegeneratePinch_of_append {l1 l2 : List Event} {s : CanvasState}
    (h : noDegeneratePinch s (l1 ++ l2) = true) :
    noDegeneratePinch s l1 = true := by
  induction l1 generalizing s with
  | nil => rfl
  | cons e es ih =>
      rw [List.cons_append] at h
      simp only [noDegeneratePinch, Bool.and_eq_true] at h ⊢
      exact ⟨h.1, ih h.2⟩

/-- Replaying any event sequence preserves the zoom bounds in the exact
model. -/
lemma run_zoom_within (events : List Event) :
    ∀ s : CanvasState, ZOOM.min ≤ s.zoom → s.zoom ≤ ZOOM.max →
      ZOOM.min ≤ (run s events).zoom ∧ (run s events).zoom ≤ ZOOM.max := by
  induction events with
  | nil => exact fun s h1 h2 => ⟨h1, h2⟩
  | cons e es ih =>
      intro s h1 h2
      have hb := step_zoom_within s e h1 h2
      simpa [run, List.foldl_cons] using ih (step s e) hb.1 hb.2

/-- C1 (amended): for every sequence of events applied from a state with
zoom in `[ZOOM.min, ZOOM.max]`, provided no pinch-move event is processed
while the stored pinch distance is zero (the degenerate case in which
JavaScript's `0 / 0 = NaN` escapes the clamp; the degenerate case is
settled separately against the JavaScript number model), the stored zoom satisfies
`ZOOM.min ≤ zoom ≤ ZOOM.max` after the sequence; since the statement
quantifies over all sequences, applying it to each initial segment gives
the bound after every intermediate update as well. -/
theorem zoom_bound_invariant (s : CanvasState) (events : List Event)
    (h1 : ZOOM.min ≤ s.zoom) (h2 : s.zoom ≤ ZOOM.max)
    (hguard : noDegeneratePinch s events = true) :
    ZOOM.min ≤ (run s events).zoom ∧ (run s events).zoom ≤ ZOOM.max :=
  run_zoom_within events s h1 h2

/-- Witness for C1: a pinch gesture followed by a modifier wheel zoom,
from the freshly centred state, keeps the zoom within bounds. -/
theorem zoom_bound_invariant_witness :
    (ZOOM.min ≤ (initialState 1024 768).zoom ∧ (initialState 1024 768).zoom ≤ ZOOM.max) ∧
    noDegeneratePinch (initialState 1024 768)
      [Event.touchStart [(0, 40), (100, 40)],
       Event.touchMove [(0, 40), (300, 40)] 0 0,
       Event.wheel true (-100) 300 200 0 0] = true ∧
    (ZOOM.min ≤ (run (initialState 1024 768)
        [Event.touchStart [(0, 40), (100, 40)],
         Event.touchMove [(0, 40), (300, 40)] 0 0,
         Event.wheel true (-100) 300 200 0 0]).zoom ∧
     (run (initialState 1024 768)
        [Event.touchStart [(0, 40), (100, 40)],
         Event.touchMove [(0, 40), (300, 40)] 0 0,
         Event.wheel true (-100) 300 200 0 0]).zoom ≤ ZOOM.max) := by
  have hz1 : ZOOM.min ≤ (initialState 1024 768).zoom := by
    norm_num [initialState, ZOOM.default, ZOOM.min]
  have hz2 : (initialState 1024 768).zoom ≤ ZOOM.max := by
    norm_num [initialState, ZOOM.default, ZOOM.max]
  have hg : noDegeneratePinch (initialState 1024 768)
      [Event.touchStart [(0, 40), (100, 40)],
       Event.touchMove [(0, 40), (300, 40)] 0 0,
       Event.wheel true (-100) 300 200 0 0] = true := by
    norm_num [noDegeneratePinch, step, handleTouchStart,
      touchDistance_eval ((0:ℚ), (40:ℚ)) ((100:ℚ), (40:ℚ)) 100 (by norm_num)]
  exact ⟨⟨hz1, hz2⟩, hg, zoom_bound_invariant _ _ hz1 hz2 hg⟩

/-- C8: the inverse arithmetic of the grid-to-pixel mapping recovers any
integer grid coordinate exactly, and `gridToPixel 1 (-1) = (5400, 4600)`;
`gridToPixel` is a function of the grid coordinates and the `GRID`
constants alone, so the mapping never depends on the viewport transform
state. -/
theorem gridToPixel_round_trip (gx gy : ℤ) :
    ((gridToPixel gx gy).1 - GRID.centerX) / GRID.cellSize = gx ∧
    ((gridToPixel gx gy).2 - GRID.centerY) / GRID.cellSize = gy ∧
    gridToPixel 1 (-1) = (5400, 4600) := by
  refine ⟨?_, ?_, ?_⟩ <;>
    norm_num [gridToPixel, GRID.centerX, GRID.centerY, GRID.cellSize]

/-- C9: once the viewport size is known, the initialization effect sets
the offset to `(viewportWidth/2 - centerX, viewportHeight/2 - centerY)`
and the zoom starts at the configured default `1.0`; for a `1024x768`
viewport this gives offset `(-4488, -4616)`. -/
theorem initial_state_centering (w h : ℚ) :
    (initialState w h).posX = w / 2 - GRID.centerX ∧
    (initialState w h).posY = h / 2 - GRID.centerY ∧
    (initialState w h).zoom = ZOOM.default ∧
    (initialState 1024 768).posX = -4488 ∧
    (initialState 1024 768).posY = -4616 ∧
    (initialState 1024 768).zoom = 1 := by
  norm_num [initialState, GRID.centerX, GRID.centerY, ZOOM.default]

/-- C10: the re-center keys set the offset to the centering formula for
the current viewport size and leave the zoom unchanged, for both key
variants and every state. -/
theorem recenter_preserves_zoom (s : CanvasState) (w h : ℚ) :
    ((step s (Event.keyDown "c" w h)).zoom = s.zoom ∧
     (step s (Event.keyDown "c" w h)).posX = w / 2 - GRID.centerX ∧
     (step s (Event.keyDown "c" w h)).posY = h / 2 - GRID.centerY) ∧
    ((step s (Event.keyDown "C" w h)).zoom = s.zoom ∧
     (step s (Event.keyDown "C" w h)).posX = w / 2 - GRID.centerX ∧
     (step s (Event.keyDown "C" w h)).posY = h / 2 - GRID.centerY) := by
  simp [step, handleKeyDown, keyZoomOut, keyZoomIn, keyResetZoom, keyRecenter,
    keyToggleDebug]

/-- Folding equation aligning the `newZoomLevel` expression of
`handleWheel` with `wheelZoomTarget`. -/
lemma wheelZoomTarget_fold (z dY : ℚ) :
    max ZOOM.min (min ZOOM.max (z + dY * (-(1:ℚ)/100) * ZOOM.step)) = wheelZoomTarget z dY :=
  rfl

/-- The clamped wheel zoom target is strictly positive. -/
lemma wheelZoomTarget_pos (z dY : ℚ) : 0 < wheelZoomTarget z dY :=
  lt_of_lt_of_le (by norm_num [ZOOM.min]) (le_max_left _ _)

/-- C2 (confirmed): for a wheel event with the modifier held, pointer at
`(clientX, clientY)` relative to the canvas rectangle's top-left corner,
if the clamped new zoom differs from the current zoom then the committed
offset keeps the surface point under the pointer fixed:
`(p - newOffset) / z1 = (p - offset) / z0` in both coordinates; and a
wheel event without the modifier is ignored entirely. -/
theorem wheel_focal_point_invariance (s : CanvasState)
    (deltaY clientX clientY rectLeft rectTop : ℚ)
    (hz0 : s.zoom ≠ 0)
    (hne : wheelZoomTarget s.zoom deltaY ≠ s.zoom) :
    (step s (Event.wheel true deltaY clientX clientY rectLeft rectTop)).zoom
        = wheelZoomTarget s.zoom deltaY ∧
    ((clientX - rectLeft) -
        (step s (Event.wheel true deltaY clientX clientY rectLeft rectTop)).posX)
        / wheelZoomTarget s.zoom deltaY
      = ((clientX - rectLeft) - s.posX) / s.zoom ∧
    ((clientY - rectTop) -
        (step s (Event.wheel true deltaY clientX clientY rectLeft rectTop)).posY)
        / wheelZoomTarget s.zoom deltaY
      = ((clientY - rectTop) - s.posY) / s.zoom ∧
    step s (Event.wheel false deltaY clientX clientY rectLeft rectTop) = s := by
  have hz1 : wheelZoomTarget s.zoom deltaY ≠ 0 := ne_of_gt (wheelZoomTarget_pos _ _)
  have hstep : step s (Event.wheel true deltaY clientX clientY rectLeft rectTop)
      = { s with
          zoom := wheelZoomTarget s.zoom deltaY
          posX := (clientX - rectLeft) -
            ((clientX - rectLeft) - s.posX) * (wheelZoomTarget s.zoom deltaY / s.zoom)
          posY := (clientY - rectTop) -
            ((clientY - rectTop) - s.posY) * (wheelZoomTarget s.zoom deltaY / s.zoom) } := by
    simp only [step, handleWheel, Bool.not_true, Bool.false_eq_true, if_false,
      wheelZoomTarget_fold]
    rw [if_pos hne]
  refine ⟨by rw [hstep], ?_, ?_, by simp [step, handleWheel]⟩
  · rw [hstep]
    field_simp
    ring
  · rw [hstep]
    field_simp
    ring

/-- Witness for C2: from the centred initial state (zoom `1.0`), a wheel
event with `deltaY = -100` at pointer `(300, 200)` zooms to `1.1` and the
focal-point identity holds. -/
theorem wheel_focal_point_invariance_witness :
    (initialState 1024 768).zoom ≠ 0 ∧
    wheelZoomTarget (initialState 1024 768).zoom (-100) ≠ (initialState 1024 768).zoom ∧
    ((step (initialState 1024 768) (Event.wheel true (-100) 300 200 0 0)).zoom
        = wheelZoomTarget (initialState 1024 768).zoom (-100) ∧
      ((300 : ℚ) - 0 - (step (initialState 1024 768)
            (Event.wheel true (-100) 300 200 0 0)).posX)
          / wheelZoomTarget (initialState 1024 768).zoom (-100)
        = ((300 : ℚ) - 0 - (initialState 1024 768).posX) / (initialState 1024 768).zoom ∧
      ((200 : ℚ) - 0 - (step (initialState 1024 768)
            (Event.wheel true (-100) 300 200 0 0)).posY)
          / wheelZoomTarget (initialState 1024 768).zoom (-100)
        = ((200 : ℚ) - 0 - (initialState 1024 768).posY) / (initialState 1024 768).zoom ∧
      step (initialState 1024 768) (Event.wheel false (-100) 300 200 0 0)
        = initialState 1024 768) := by
  have h1 : (initialState 1024 768).zoom ≠ 0 := by
    norm_num [initialState, ZOOM.default]
  have h2 : wheelZoomTarget (initialState 1024 768).zoom (-100)
      ≠ (initialState 1024 768).zoom := by
    norm_num [wheelZoomTarget, initialState, ZOOM.default, ZOOM.min, ZOOM.max, ZOOM.step]
  exact ⟨h1, h2, wheel_focal_point_invariance _ _ 300 200 0 0 h1 h2⟩

/-- A sequence of mouse-move events leaves the drag flag, the session
anchor and the zoom unchanged. -/
lemma run_mouseMove_keeps (moves : List (ℚ × ℚ)) :
    ∀ s : CanvasState, s.isDragging = true →
      (run s (moves.map fun m => Event.mouseMove m.1 m.2)).isDragging = true ∧
      (run s (moves.map fun m => Event.mouseMove m.1 m.2)).startX = s.startX ∧
      (run s (moves.map fun m => Event.mouseMove m.1 m.2)).startY = s.startY ∧
      (run s (moves.map fun m => Event.mouseMove m.1 m.2)).zoom = s.zoom := by
  induction moves with
  | nil => exact fun s hd => ⟨hd, rfl, rfl, rfl⟩
  | cons m ms ih =>
      intro s hd
      have hstep : step s (Event.mouseMove m.1 m.2)
          = { s with posX := m.1 - s.startX, posY := m.2 - s.startY } := by
        simp [step, handleMouseMove, hd]
      have ih := ih { s with posX := m.1 - s.startX, posY := m.2 - s.startY } hd
      simpa [run, List.foldl_cons, hstep] using ih

/-- C6 (confirmed): a drag session opened by a press at `(ax, ay)` from
offset `(ox, oy)` yields, after any number of intermediate move events
and a final move to `(mx, my)`, exactly the offset
`(ox + mx - ax, oy + my - ay)`, with the zoom untouched. -/
theorem drag_exactness (s : CanvasState) (ax ay : ℚ) (moves : List (ℚ × ℚ)) (mx my : ℚ) :
    (run (step s (Event.mouseDown ax ay))
        ((moves.map fun m => Event.mouseMove m.1 m.2) ++ [Event.mouseMove mx my])).posX
      = s.posX + mx - ax ∧
    (run (step s (Event.mouseDown ax ay))
        ((moves.map fun m => Event.mouseMove m.1 m.2) ++ [Event.mouseMove mx my])).posY
      = s.posY + my - ay ∧
    (run (step s (Event.mouseDown ax ay))
        ((moves.map fun m => Event.mouseMove m.1 m.2) ++ [Event.mouseMove mx my])).zoom
      = s.zoom := by
  have hdown : step s (Event.mouseDown ax ay)
      = { s with isDragging := true, startX := ax - s.posX, startY := ay - s.posY } := rfl
  have hk := run_mouseMove_keeps moves (step s (Event.mouseDown ax ay)) (by rw [hdown])
  have hsplit : run (step s (Event.mouseDown ax ay))
      ((moves.map fun m => Event.mouseMove m.1 m.2) ++ [Event.mouseMove mx my])
      = step (run (step s (Event.mouseDown ax ay))
          (moves.map fun m => Event.mouseMove m.1 m.2)) (Event.mouseMove mx my) := by
    simp [run, List.foldl_append]
  rw [hsplit]
  set R := run (step s (Event.mouseDown ax ay)) (moves.map fun m => Event.mouseMove m.1 m.2)
    with hR
  have hlast : step R (Event.mouseMove mx my)
      = { R with posX := mx - R.startX, posY := my - R.startY } := by
    simp only [step, handleMouseMove, hk.1, Bool.not_true, Bool.false_eq_true, if_false]
  rw [hlast]
  have hsx : R.startX = ax - s.posX := by rw [hk.2.1, hdown]
  have hsy : R.startY = ay - s.posY := by rw [hk.2.2.1, hdown]
  have hsz : R.zoom = s.zoom := by rw [hk.2.2.2, hdown]
  refine ⟨?_, ?_, ?_⟩
  · show mx - R.startX = s.posX + mx - ax
    rw [hsx]; ring
  · show my - R.startY = s.posY + my - ay
    rw [hsy]; ring
  · exact hsz

/-- Counterexample for C3: the code's pinch zoom is incremental, not
anchor-based.  A pinch whose distance goes `100 → 300 → 150` from zoom
`1.0` saturates the clamp at the intermediate step (`clamp(3.0) = 2.0`)
and ends at zoom `2.0 * (150/300) = 1.0`, whereas the spec's
anchor-based formula `clamp(anchorZoom * currentDistance/anchorDistance)`
yields `clamp(1.0 * 150/100) = 1.5`. -/
theorem pinch_not_anchor_based_cex :
    (run (initialState 1024 768)
       [Event.touchStart [(0, 40), (100, 40)],
        Event.touchMove [(0, 40), (300, 40)] 0 0,
        Event.touchMove [(0, 40), (150, 40)] 0 0]).zoom = 1 ∧
    specPinchZoom (initialState 1024 768).zoom
        (touchDistance (0, 40) (100, 40)) (touchDistance (0, 40) (150, 40)) = 3 / 2 ∧
    (1 : ℚ) ≠ 3 / 2 := by
  refine ⟨?_, ?_, by norm_num⟩
  · norm_num [run, step, handleTouchStart, handleTouchMove, initialState,
      touchDistance_eval ((0:ℚ), (40:ℚ)) ((100:ℚ), (40:ℚ)) 100 (by norm_num),
      touchDistance_eval ((0:ℚ), (40:ℚ)) ((300:ℚ), (40:ℚ)) 300 (by norm_num),
      touchDistance_eval ((0:ℚ), (40:ℚ)) ((150:ℚ), (40:ℚ)) 150 (by norm_num),
      ZOOM.min, ZOOM.max, ZOOM.default]
  · norm_num [specPinchZoom, initialState,
      touchDistance_eval ((0:ℚ), (40:ℚ)) ((100:ℚ), (40:ℚ)) 100 (by norm_num),
      touchDistance_eval ((0:ℚ), (40:ℚ)) ((150:ℚ), (40:ℚ)) 150 (by norm_num),
      ZOOM.min, ZOOM.max, ZOOM.default]

/-- C3 (amended): on every pinch-move event with two contacts and stored
distance `d`, the code applies the spec's zoom and focal-offset formulas
with the PREVIOUS event's stored distance, the CURRENT zoom and the
CURRENT offset in place of the session anchors, and re-stores the
current distance — an incremental update, which coincides with the
anchor-based description only while no intermediate clamp saturates. -/
theorem pinch_incremental_update (s : CanvasState) (t1 t2 : ℚ × ℚ)
    (rectLeft rectTop : ℚ) (d : ℚ) (hd : s.lastDistance = some d) :
    (step s (Event.touchMove [t1, t2] rectLeft rectTop)).zoom
        = specPinchZoom s.zoom d (touchDistance t1 t2) ∧
    (step s (Event.touchMove [t1, t2] rectLeft rectTop)).posX
        = specFocalOffset ((t1.1 + t2.1) / 2 - rectLeft) s.posX
            (specPinchZoom s.zoom d (touchDistance t1 t2) / s.zoom) ∧
    (step s (Event.touchMove [t1, t2] rectLeft rectTop)).posY
        = specFocalOffset ((t1.2 + t2.2) / 2 - rectTop) s.posY
            (specPinchZoom s.zoom d (touchDistance t1 t2) / s.zoom) ∧
    (step s (Event.touchMove [t1, t2] rectLeft rectTop)).lastDistance
        = some (touchDistance t1 t2) := by
  simp [step, handleTouchMove, hd, specPinchZoom, specFocalOffset]

/-- Witness for C3: a state holding stored pinch distance `100` at zoom
`1.0`; a move to distance `150` commits `clamp(1.0 * 150/100) = 1.5`. -/
theorem pinch_incremental_update_witness :
    pinchState100.lastDistance = some 100 ∧
    ((step pinchState100 (Event.touchMove [(0, 40), (150, 40)] 0 0)).zoom
        = specPinchZoom pinchState100.zoom 100 (touchDistance (0, 40) (150, 40)) ∧
      (step pinchState100 (Event.touchMove [(0, 40), (150, 40)] 0 0)).posX
        = specFocalOffset (((0:ℚ) + 150) / 2 - 0) pinchState100.posX
            (specPinchZoom pinchState100.zoom 100 (touchDistance (0, 40) (150, 40))
              / pinchState100.zoom) ∧
      (step pinchState100 (Event.touchMove [(0, 40), (150, 40)] 0 0)).posY
        = specFocalOffset (((40:ℚ) + 40) / 2 - 0) pinchState100.posY
            (specPinchZoom pinchState100.zoom 100 (touchDistance (0, 40) (150, 40))
              / pinchState100.zoom) ∧
      (step pinchState100 (Event.touchMove [(0, 40), (150, 40)] 0 0)).lastDistance
        = some (touchDistance (0, 40) (150, 40))) :=
  ⟨rfl, pinch_incremental_update pinchState100 (0, 40) (150, 40) 0 0 100 rfl⟩

/-- Counterexample for C5: after a single-contact touch start followed by
a second contact arriving, the drag flag is still set while the pinch
distance is stored — both sessions are open at once, so the exclusivity
invariant fails. -/
theorem session_exclusivity_cex :
    (run (initialState 1024 768)
      [Event.touchStart [(100, 100)],
       Event.touchStart [(100, 100), (200, 100)]]).isDragging = true ∧
    (run (initialState 1024 768)
      [Event.touchStart [(100, 100)],
       Event.touchStart [(100, 100), (200, 100)]]).lastDistance = some 100 := by
  norm_num [run, step, handleTouchStart, initialState,
    touchDistance_eval ((100:ℚ), (100:ℚ)) ((200:ℚ), (100:ℚ)) 100 (by norm_num)]

/-- C5 (amended): when a second contact arrives, the pinch session opens
(the distance between the two contacts is stored) but the single-contact
drag session is NOT discarded: the drag flag, its anchor, the offset and
the zoom are all left unchanged, so a drag session and a pinch session
can be open simultaneously; while two contacts are active, move events
are dispatched to the pinch branch, so the lingering drag session is
masked rather than discarded. -/
theorem touchStart_two_contacts_keeps_drag (s : CanvasState) (t1 t2 : ℚ × ℚ) :
    (step s (Event.touchStart [t1, t2])).lastDistance = some (touchDistance t1 t2) ∧
    (step s (Event.touchStart [t1, t2])).isDragging = s.isDragging ∧
    (step s (Event.touchStart [t1, t2])).startX = s.startX ∧
    (step s (Event.touchStart [t1, t2])).startY = s.startY ∧
    (step s (Event.touchStart [t1, t2])).posX = s.posX ∧
    (step s (Event.touchStart [t1, t2])).posY = s.posY ∧
    (step s (Event.touchStart [t1, t2])).zoom = s.zoom :=
  ⟨rfl, rfl, rfl, rfl, rfl, rfl, rfl⟩

/-- C7 evaluation: when the contact count drops from two to one, the
pinch session is discarded but no fresh drag session is opened: the drag
flag and the anchor captured BEFORE the pinch survive, so the next
single-contact move jumps.  Concretely: a drag is opened at `(100, 40)`
from offset `(0, 0)`; a pinch `100 → 300` moves the offset to
`(-250, -40)` at zoom `2`; one contact lifts; the remaining contact moves
by `10` pixels, and the offset teleports to `(310, 0)` instead of the
re-anchored `(-240, -40)`. -/
theorem pinch_end_stale_drag_anchor :
    (run baseState
       [Event.touchStart [(100, 40)],
        Event.touchStart [(100, 40), (200, 40)],
        Event.touchMove [(100, 40), (400, 40)] 0 0,
        Event.touchEnd [(400, 40)]]).lastDistance = none ∧
    (run baseState
       [Event.touchStart [(100, 40)],
        Event.touchStart [(100, 40), (200, 40)],
        Event.touchMove [(100, 40), (400, 40)] 0 0,
        Event.touchEnd [(400, 40)]]).isDragging = true ∧
    (run baseState
       [Event.touchStart [(100, 40)],
        Event.touchStart [(100, 40), (200, 40)],
        Event.touchMove [(100, 40), (400, 40)] 0 0,
        Event.touchEnd [(400, 40)]]).posX = -250 ∧
    (run baseState
       [Event.touchStart [(100, 40)],
        Event.touchStart [(100, 40), (200, 40)],
        Event.touchMove [(100, 40), (400, 40)] 0 0,
        Event.touchEnd [(400, 40)]]).posY = -40 ∧
    (run baseState
       [Event.touchStart [(100, 40)],
        Event.touchStart [(100, 40), (200, 40)],
        Event.touchMove [(100, 40), (400, 40)] 0 0,
        Event.touchEnd [(400, 40)],
        Event.touchMove [(410, 40)] 0 0]).posX = 310 ∧
    (run baseState
       [Event.touchStart [(100, 40)],
        Event.touchStart [(100, 40), (200, 40)],
        Event.touchMove [(100, 40), (400, 40)] 0 0,
        Event.touchEnd [(400, 40)],
        Event.touchMove [(410, 40)] 0 0]).posY = 0 ∧
    ((310 : ℚ) ≠ -250 + 10 ∧ (0 : ℚ) ≠ -40 + 0) := by
  norm_num [run, step, handleTouchStart, handleTouchMove, handleTouchEnd, baseState,
    touchDistance_eval ((100:ℚ), (40:ℚ)) ((200:ℚ), (40:ℚ)) 100 (by norm_num),
    touchDistance_eval ((100:ℚ), (40:ℚ)) ((400:ℚ), (40:ℚ)) 300 (by norm_num),
    ZOOM.min, ZOOM.max]

end Canvas

namespace JS

/-- Distinctness of the finite and `NaN` cases of `JSNum`. -/
lemma num_ne_nan (q : ℚ) : JSNum.num q ≠ JSNum.nan := fun h => JSNum.noConfusion h

/-- Distinctness of the infinite and `NaN` cases of `JSNum`. -/
lemma inf_ne_nan : JSNum.inf ≠ JSNum.nan := fun h => JSNum.noConfusion h

/-- C4 evaluation (the claim is right, the code lacks the guard): the
pinch branch of `handleTouchMove` fires whenever two contacts are active
and `lastDistance` is non-null, with no check for `lastDistance = 0`: a
two-contact touch start with both contacts at the same point stores
distance `0`, and a following pinch move with contacts `60` apart
computes `ratio = 60 / 0 = Infinity`, commits
`zoom = max(0.2, min(2.0, 1 * Infinity)) = 2.0` and stores distance
`60` — a state change where the claim requires the event to be held with
no state change. -/
theorem touchMove_degenerate_unguarded :
    Canvas.touchDistance (100, 100) (100, 100) = 0 ∧
    touchMoveZoom (.num 1) (some (Canvas.touchDistance (100, 100) (100, 100)))
        [(100, 100), (160, 100)] = (.num 2, some 60) ∧
    JSNum.num 2 ≠ JSNum.num 1 := by
  have h0 : Canvas.touchDistance ((100:ℚ), (100:ℚ)) ((100:ℚ), (100:ℚ)) = 0 := by
    rw [Canvas.touchDistance_eval _ _ 0 (by norm_num)]
    norm_num
  have hd : Canvas.touchDistance ((100:ℚ), (100:ℚ)) ((160:ℚ), (100:ℚ)) = 60 := by
    rw [Canvas.touchDistance_eval _ _ 60 (by norm_num)]
    norm_num
  have hz : pinchZoomUpdate (.num 1) 0 60 = .num 2 := by
    norm_num [pinchZoomUpdate, div, mul, jsMin, jsMax, le, num_ne_nan, inf_ne_nan,
      Canvas.ZOOM.min, Canvas.ZOOM.max, decide_eq_true_eq]
  refine ⟨h0, ?_, by norm_num⟩
  rw [h0]
  simp [touchMoveZoom, hd, hz]

/-- Counterexample for C1: under JavaScript number semantics, from zoom
`1.0` (within bounds) with an open pinch session of stored distance
`100`, two pinch-move events with coincident contacts first store
distance `0` (the zoom clamps to `0.2`), and the second computes
`ratio = 0 / 0 = NaN`, which propagates through `Math.min` / `Math.max`
and is committed as the zoom, so `zoomMin ≤ zoom ≤ zoomMax` fails after
an update of the claimed kind. -/
theorem zoom_bound_nan_escape_cex :
    zoomInBounds (.num 1) = true ∧
    touchMoveZoom (.num 1) (some 100) [(100, 100), (100, 100)]
      = (.num (1/5), some 0) ∧
    touchMoveZoom (.num (1/5)) (some 0) [(100, 100), (100, 100)] = (.nan, some 0) ∧
    zoomInBounds .nan = false := by
  have h0 : Canvas.touchDistance ((100:ℚ), (100:ℚ)) ((100:ℚ), (100:ℚ)) = 0 := by
    rw [Canvas.touchDistance_eval _ _ 0 (by norm_num)]
    norm_num
  have hz1 : pinchZoomUpdate (.num 1) 100 0 = .num (1/5) := by
    norm_num [pinchZoomUpdate, div, mul, jsMin, jsMax, le, num_ne_nan, inf_ne_nan,
      Canvas.ZOOM.min, Canvas.ZOOM.max, decide_eq_true_eq]
  have hz2 : pinchZoomUpdate (.num ((5:ℚ)⁻¹)) 0 0 = .nan := by
    norm_num [pinchZoomUpdate, div, mul, jsMin, jsMax, le, num_ne_nan, inf_ne_nan,
      Canvas.ZOOM.min, Canvas.ZOOM.max, decide_eq_true_eq]
  refine ⟨?_, ?_, ?_, ?_⟩
  · norm_num [zoomInBounds, le, Bool.and_eq_true, decide_eq_true_eq,
      Canvas.ZOOM.min, Canvas.ZOOM.max]
  · simp [touchMoveZoom, h0, hz1]
  · simp [touchMoveZoom, h0, hz2]
  · simp [zoomInBounds, le]

end JS
